import Mathlib

/-!
Shallow embedding of the hurribot backtesting core (src/backtest/contract.rs,
src/backtest/strategy/roll_strategy.rs, src/backtest/strategy/geo_strategy.rs).
Floating-point numbers are modelled as exact rationals, timestamps and
durations as integers (unix time), and the shared capital pool as an explicit
rational threaded through `GeoStrategy.update`; a `panic!` is modelled by the
update returning `none`.
-/

namespace Hurribot

/-- Maker handling fee rate, 0.02% (`HANDLING_FEE_RATE_MAKER` in contract.rs). -/
def HANDLING_FEE_RATE_MAKER : ℚ := 2 / 10000

/-- Taker handling fee rate, 0.05% (`HANDLING_FEE_RATE_TAKER` in contract.rs). -/
def HANDLING_FEE_RATE_TAKER : ℚ := 5 / 10000

/-- One leveraged position, mirroring `struct Contract` in contract.rs. -/
structure Contract where
  is_bull : Bool
  margin : ℚ
  entry_price : ℚ
  open_time : ℤ
  liq_price : ℚ
  amount : ℚ
  leverage : ℚ
  stop_loss : Option ℚ
  deriving Repr, DecidableEq

/-- `Contract::open` from contract.rs: derives margin from the offered balance
net of the maker fee, the liquidation price from leverage plus the 0.4%
maintenance buffer, and drops a stop-loss on the wrong side of the
liquidation price. -/
def Contract.openContract (is_bull : Bool) (entry_price offered_balance leverage : ℚ)
    (open_time : ℤ) (stop_loss : Option ℚ) : Contract :=
  let margin := offered_balance / (1 + leverage * HANDLING_FEE_RATE_MAKER)
  let liq_price :=
    if is_bull then entry_price * (1 - 1 / leverage) + entry_price * (4 / 1000)
    else entry_price * (1 + 1 / leverage) - entry_price * (4 / 1000)
  let amount := margin * leverage / entry_price
  let stop_loss' :=
    match stop_loss with
    | some sl =>
        if (is_bull = true ∧ sl < liq_price) ∨ (is_bull = false ∧ liq_price < sl) then none
        else some sl
    | none => none
  { is_bull := is_bull, margin := margin, entry_price := entry_price, open_time := open_time,
    liq_price := liq_price, amount := amount, leverage := leverage, stop_loss := stop_loss' }

/-- `Contract::cover` from contract.rs: mark-to-market close value, charging
the maker fee on the closing leg only. -/
def Contract.cover (c : Contract) (price : ℚ) : ℚ :=
  if c.is_bull then
    c.amount * (price - c.entry_price) + c.margin - c.amount * price * HANDLING_FEE_RATE_MAKER
  else
    c.amount * (c.entry_price - price) + c.margin - c.amount * price * HANDLING_FEE_RATE_MAKER

/-- `Contract::liquidate` from contract.rs: stop-loss exit first, else forced
liquidation at the liquidation price with a 15% haircut, else `none`. -/
def Contract.liquidate (c : Contract) (price : ℚ) : Option ℚ :=
  match c.stop_loss with
  | some stop_loss =>
      if (c.is_bull = true ∧ price < stop_loss) ∨ (c.is_bull = false ∧ stop_loss < price) then
        some (c.cover stop_loss)
      else if (c.is_bull = true ∧ price < c.liq_price) ∨
          (c.is_bull = false ∧ c.liq_price < price) then
        some (c.cover c.liq_price * (85 / 100))
      else none
  | none =>
      if (c.is_bull = true ∧ price < c.liq_price) ∨
          (c.is_bull = false ∧ c.liq_price < price) then
        some (c.cover c.liq_price * (85 / 100))
      else none

/-- `Contract::close` from contract.rs. -/
def Contract.close (c : Contract) (price : ℚ) : ℚ :=
  match c.liquidate price with
  | some r => r
  | none => c.cover price

/-- The stop-loss of `c` has been crossed by `price` (the condition of the
first branch of `Contract::liquidate`). -/
def stopCrossed (c : Contract) (price : ℚ) : Prop :=
  ∃ sl, c.stop_loss = some sl ∧
    ((c.is_bull = true ∧ price < sl) ∨ (c.is_bull = false ∧ sl < price))

/-- The liquidation price of `c` has been crossed by `price` (the condition of
the second branch of `Contract::liquidate`). -/
def liqCrossed (c : Contract) (price : ℚ) : Prop :=
  (c.is_bull = true ∧ price < c.liq_price) ∨ (c.is_bull = false ∧ c.liq_price < price)

/-- Modelled from the spec: the construction-time validation the spec's
failure-semantics paragraph describes for `Contract::open` (reject leverage
below 1 and non-positive price or capital); used only to compare the spec's
claimed behavior with the code's. -/
def openChecked (is_bull : Bool) (entry_price offered_balance leverage : ℚ)
    (open_time : ℤ) (stop_loss : Option ℚ) : Option Contract :=
  if leverage < 1 ∨ entry_price ≤ 0 ∨ offered_balance ≤ 0 then none
  else some (Contract.openContract is_bull entry_price offered_balance leverage open_time stop_loss)

/-- One OHLCV record, mirroring `struct CandleData` in candle_chart.rs
(timestamps as unix seconds). -/
structure CandleData where
  opn : ℚ
  high : ℚ
  low : ℚ
  close : ℚ
  volume : ℚ
  open_time : ℤ
  close_time : ℤ
  deriving Repr, DecidableEq

/-- Status of a `RollOnceStrategy`, mirroring `enum RollOnceStatus` in
roll_strategy.rs. -/
inductive RollOnceStatus where
  | Processing
  | Successed
  | Failed
  | Aborted
  deriving Repr, DecidableEq

/-- State of the ladder-escalation strategy, mirroring
`struct RollOnceStrategy` in roll_strategy.rs; `config` is the ladder of
`(leverage, take_profit, optional max_draw)` levels. -/
structure RollOnceStrategy where
  is_bull : Bool
  capital : ℚ
  config : List (ℚ × ℚ × Option ℚ)
  contract : Option Contract
  level : ℕ
  max_value : ℚ
  best_price : ℚ
  status : RollOnceStatus
  deriving Repr, DecidableEq

/-- The contract-handling block of `RollOnceStrategy::update` (the body of
`if let Some(contract) = self.contract.take()`); the early `return`s of the
Rust code are the branches that leave `status` no longer `Processing`. -/
def RollOnceStrategy.updateContract (s : RollOnceStrategy) (candle : CandleData) :
    RollOnceStrategy :=
  match s.contract with
  | none => s
  | some contract =>
    let cfg := s.config.getD (s.level - 1) (0, 0, none)
    let take_profit := cfg.2.1
    let max_draw := cfg.2.2
    match contract.liquidate (if s.is_bull then candle.low else candle.high) with
    | some r =>
        { s with
          contract := none
          capital := s.capital + r
          status := RollOnceStatus.Failed }
    | none =>
        if (s.is_bull = true ∧ contract.entry_price * (1 + take_profit) < candle.close) ∨
            (s.is_bull = false ∧ candle.close < contract.entry_price * (1 - take_profit)) then
          { s with contract := none, capital := s.capital + contract.close candle.close }
        else
          let value_high := contract.close candle.high
          let value_low := contract.close candle.low
          let s2 := if s.max_value < value_high then
              { s with max_value := value_high, best_price := candle.high } else s
          let s3 := if s2.max_value < value_low then
              { s2 with max_value := value_low, best_price := candle.low } else s2
          match max_draw with
          | some md =>
              if contract.close candle.close < s3.max_value * (1 - md) then
                { s3 with
                  contract := none
                  capital := s3.capital + contract.close candle.close
                  status := RollOnceStatus.Successed }
              else { s3 with contract := some contract }
          | none => { s3 with contract := some contract }

/-- The tail of `RollOnceStrategy::update`: open the next ladder level when
flat and levels remain. -/
def RollOnceStrategy.openNext (s : RollOnceStrategy) (candle : CandleData) :
    RollOnceStrategy :=
  if s.contract.isSome then s
  else if s.config.length ≤ s.level then s
  else
    let leverage := (s.config.getD s.level (0, 0, none)).1
    let stop_loss :=
      if s.is_bull then candle.close * (1 - (99 / 100) / leverage) + candle.close * (4 / 1000)
      else candle.close * (1 + (99 / 100) / leverage) - candle.close * (4 / 1000)
    { s with
      contract := some (Contract.openContract s.is_bull candle.close s.capital leverage
        candle.close_time (some stop_loss))
      capital := 0
      level := s.level + 1 }

/-- `RollOnceStrategy::update` from roll_strategy.rs. -/
def RollOnceStrategy.update (s : RollOnceStrategy) (candle : CandleData) :
    RollOnceStrategy :=
  if s.status ≠ RollOnceStatus.Processing then s
  else
    let s1 := s.updateContract candle
    if s1.status ≠ RollOnceStatus.Processing then s1
    else s1.openNext candle

/-- `RollOnceStrategy::value` from roll_strategy.rs. -/
def RollOnceStrategy.value (s : RollOnceStrategy) : ℚ :=
  s.capital + (match s.contract with | some c => c.margin | none => 0)

/-- `RollOnceStrategy::close` from roll_strategy.rs: realize any open
contract at `price`, set `Aborted`, return the capital (paired with the new
state). -/
def RollOnceStrategy.closeStrat (s : RollOnceStrategy) (price : ℚ) :
    RollOnceStrategy × ℚ :=
  let s1 :=
    match s.contract with
    | some contract => { s with contract := none, capital := s.capital + contract.close price }
    | none => s
  let s2 := { s1 with status := RollOnceStatus.Aborted }
  (s2, s2.capital)

/-- State of the periodic proportional-reopening strategy, mirroring
`struct GeoStrategy` in geo_strategy.rs; the shared pool
(`total_capital: Arc<Mutex<f64>>`) is threaded explicitly through
`GeoStrategy.update`. -/
structure GeoStrategy where
  is_bull : Bool
  leverage : ℚ
  interval : ℤ
  ratio : ℚ
  supply : ℚ
  stop_loss_ratio : ℚ
  take_profit_ratio : ℚ
  position : Option Contract
  capital : ℚ
  stake : ℚ
  cost : ℚ
  open_count : ℤ
  last_time : ℤ
  deriving Repr, DecidableEq

/-- The position-opening tail of `GeoStrategy::update`. -/
def GeoStrategy.openPos (s : GeoStrategy) (candle : CandleData) : GeoStrategy :=
  let stop_loss :=
    if s.is_bull then some ((1 - s.stop_loss_ratio) * candle.close)
    else some ((1 + s.stop_loss_ratio) * candle.close)
  { s with
    position := some (Contract.openContract s.is_bull candle.close (s.capital * s.ratio)
      s.leverage candle.close_time stop_loss)
    capital := s.capital - s.capital * s.ratio
    last_time := candle.close_time
    open_count := s.open_count + 1 }

/-- `GeoStrategy::update` from geo_strategy.rs, with the shared pool passed
in and returned explicitly; the `panic!` on an insufficient shared pool is
modelled as `none`. -/
def GeoStrategy.update (s : GeoStrategy) (total_capital : ℚ) (candle : CandleData) :
    Option (GeoStrategy × ℚ) :=
  let st :=
    match s.position with
    | none => s
    | some contract =>
      match contract.liquidate (if s.is_bull then candle.low else candle.high) with
      | some r => { s with position := none, capital := s.capital + r }
      | none =>
        if contract.open_time + s.interval ≤ candle.close_time ∧
            ((s.is_bull = true ∧
                contract.entry_price * (1 + s.take_profit_ratio) < candle.close) ∨
              (s.is_bull = false ∧
                candle.close < contract.entry_price * (1 - s.take_profit_ratio))) then
          { s with position := none, capital := s.capital + contract.close candle.close }
        else s
  if st.position.isSome ∨ candle.close_time < st.last_time + st.interval then
    some (st, total_capital)
  else if st.capital < st.supply then
    let cost := st.supply - st.capital
    if st.stake < cost then
      let supplement := cost - st.stake
      if total_capital < supplement then none
      else
        some ((GeoStrategy.openPos
          { st with stake := 0, cost := st.cost + supplement, capital := st.supply } candle),
          total_capital - supplement)
    else
      some (GeoStrategy.openPos
        { st with stake := st.stake - cost, capital := st.supply } candle, total_capital)
  else some (GeoStrategy.openPos st candle, total_capital)

/-- `GeoStrategy::value` from geo_strategy.rs. -/
def GeoStrategy.value (s : GeoStrategy) : ℚ :=
  match s.position with
  | some contract => contract.margin + s.capital + s.stake
  | none => s.capital + s.stake

/-- `GeoStrategy::close` from geo_strategy.rs: realize any open position at
`price` and return `value()` (paired with the new state). -/
def GeoStrategy.closeStrat (s : GeoStrategy) (price : ℚ) : GeoStrategy × ℚ :=
  let s1 :=
    match s.position with
    | some offer => { s with position := none, capital := s.capital + offer.close price }
    | none => s
  (s1, s1.value)

/-- Helper: the stop-loss branch of `Contract::liquidate`. -/
theorem liquidate_stop_eq (c : Contract) (p sl : ℚ) (hsl : c.stop_loss = some sl)
    (h : (c.is_bull = true ∧ p < sl) ∨ (c.is_bull = false ∧ sl < p)) :
    c.liquidate p = some (c.cover sl) := by
  simp only [Contract.liquidate, hsl]
  rw [if_pos h]

/-- Helper: the forced-liquidation branch of `Contract::liquidate`. -/
theorem liquidate_liq_eq (c : Contract) (p : ℚ) (hs : ¬ stopCrossed c p)
    (h : liqCrossed c p) :
    c.liquidate p = some (c.cover c.liq_price * (85 / 100)) := by
  rw [liqCrossed] at h
  rcases hsl : c.stop_loss with _ | sl
  · simp only [Contract.liquidate, hsl]
    rw [if_pos h]
  · have hns : ¬ ((c.is_bull = true ∧ p < sl) ∨ (c.is_bull = false ∧ sl < p)) :=
      fun hcross => hs ⟨sl, hsl, hcross⟩
    simp only [Contract.liquidate, hsl]
    rw [if_neg hns, if_pos h]

/-- Helper: `Contract::liquidate` returns `none` when neither threshold is
crossed. -/
theorem liquidate_none_eq (c : Contract) (p : ℚ) (hs : ¬ stopCrossed c p)
    (h : ¬ liqCrossed c p) : c.liquidate p = none := by
  rw [liqCrossed] at h
  rcases hsl : c.stop_loss with _ | sl
  · simp only [Contract.liquidate, hsl]
    rw [if_neg h]
  · have hns : ¬ ((c.is_bull = true ∧ p < sl) ∨ (c.is_bull = false ∧ sl < p)) :=
      fun hcross => hs ⟨sl, hsl, hcross⟩
    simp only [Contract.liquidate, hsl]
    rw [if_neg hns, if_neg h]

/-- Helper: the close value of a contract opened by `Contract::open` with
positive entry price and capital and leverage at least 1, evaluated at its
own liquidation price, is nonnegative. -/
theorem cover_liq_nonneg (is_bull : Bool) (entry_price offered_balance leverage : ℚ)
    (open_time : ℤ) (osl : Option ℚ)
    (he : 0 < entry_price) (ho : 0 < offered_balance) (hl : 1 ≤ leverage) :
    0 ≤ (Contract.openContract is_bull entry_price offered_balance leverage open_time osl).cover
        (Contract.openContract is_bull entry_price offered_balance leverage open_time osl).liq_price := by
  have hl0 : 0 < leverage := lt_of_lt_of_le one_pos hl
  have hm : 0 < offered_balance / (1 + leverage * (2 / 10000)) := by
    apply div_pos ho
    nlinarith
  set m := offered_balance / (1 + leverage * (2 / 10000)) with hmdef
  have hlz : leverage ≠ 0 := ne_of_gt hl0
  have hez : entry_price ≠ 0 := ne_of_gt he
  cases is_bull with
  | true =>
      show 0 ≤ m * leverage / entry_price *
          ((entry_price * (1 - 1 / leverage) + entry_price * (4 / 1000)) - entry_price) + m -
          m * leverage / entry_price *
          (entry_price * (1 - 1 / leverage) + entry_price * (4 / 1000)) * (2 / 10000)
      have key : m * leverage / entry_price *
          ((entry_price * (1 - 1 / leverage) + entry_price * (4 / 1000)) - entry_price) + m -
          m * leverage / entry_price *
          (entry_price * (1 - 1 / leverage) + entry_price * (4 / 1000)) * (2 / 10000)
          = m * (4749 * leverage + 250) / 1250000 := by
        field_simp
        ring
      rw [key]
      apply div_nonneg _ (by norm_num)
      nlinarith
  | false =>
      show 0 ≤ m * leverage / entry_price *
          (entry_price - (entry_price * (1 + 1 / leverage) - entry_price * (4 / 1000))) + m -
          m * leverage / entry_price *
          (entry_price * (1 + 1 / leverage) - entry_price * (4 / 1000)) * (2 / 10000)
      have key : m * leverage / entry_price *
          (entry_price - (entry_price * (1 + 1 / leverage) - entry_price * (4 / 1000))) + m -
          m * leverage / entry_price *
          (entry_price * (1 + 1 / leverage) - entry_price * (4 / 1000)) * (2 / 10000)
          = m * (4751 * leverage - 250) / 1250000 := by
        field_simp
        ring
      rw [key]
      apply div_nonneg _ (by norm_num)
      nlinarith

/-- C2: `Contract::liquidate(p)` is `some` exactly when the stop-loss (if
present) or the liquidation price has been crossed by `p`; the stop-loss is
checked first, so a crossed stop-loss realizes `cover(stop_loss)`; when only
the liquidation price is crossed the result is `cover(liq_price) * 0.85`;
otherwise the result is `none`. -/
theorem C2_liquidate_spec (c : Contract) (p : ℚ) :
    ((c.liquidate p).isSome ↔ stopCrossed c p ∨ liqCrossed c p) ∧
    (∀ sl, c.stop_loss = some sl →
      ((c.is_bull = true ∧ p < sl) ∨ (c.is_bull = false ∧ sl < p)) →
      c.liquidate p = some (c.cover sl)) ∧
    (¬ stopCrossed c p → liqCrossed c p →
      c.liquidate p = some (c.cover c.liq_price * (85 / 100))) ∧
    (¬ stopCrossed c p → ¬ liqCrossed c p → c.liquidate p = none) := by
  refine ⟨⟨?_, ?_⟩, ?_, ?_, ?_⟩
  · intro hsome
    by_contra hcon
    rcases not_or.mp hcon with ⟨h1, h2⟩
    rw [liquidate_none_eq c p h1 h2] at hsome
    exact Bool.noConfusion hsome
  · rintro (⟨sl, hsl, hcross⟩ | hliq)
    · rw [liquidate_stop_eq c p sl hsl hcross]; rfl
    · by_cases hstop : stopCrossed c p
      · rcases hstop with ⟨sl, hsl, hcross⟩
        rw [liquidate_stop_eq c p sl hsl hcross]; rfl
      · rw [liquidate_liq_eq c p hstop hliq]; rfl
  · intro sl hsl hcross
    exact liquidate_stop_eq c p sl hsl hcross
  · exact liquidate_liq_eq c p
  · exact liquidate_none_eq c p

/-- Witness for C2: the stop-loss clause at a concrete contract and price. -/
theorem C2_liquidate_spec_witness :
    (Contract.openContract true 100 100 100 0 (some (999 / 10))).liquidate 9 =
      some ((Contract.openContract true 100 100 100 0 (some (999 / 10))).cover (999 / 10)) :=
  (C2_liquidate_spec (Contract.openContract true 100 100 100 0 (some (999 / 10))) 9).2.1
    (999 / 10) (by norm_num [Contract.openContract, HANDLING_FEE_RATE_MAKER])
    (Or.inl ⟨rfl, by norm_num⟩)

/-- C10: the realized value of `Contract::liquidate` depends only on which
threshold was crossed, not on how far the price lies beyond it: any price
crossing the stop-loss realizes `cover(stop_loss)`, and any price crossing
only the liquidation price realizes `cover(liq_price) * 0.85`. -/
theorem C10_trigger_price (c : Contract) (p₁ p₂ : ℚ) :
    (∀ sl, c.stop_loss = some sl → stopCrossed c p₁ → stopCrossed c p₂ →
      c.liquidate p₁ = some (c.cover sl) ∧ c.liquidate p₁ = c.liquidate p₂) ∧
    (¬ stopCrossed c p₁ → ¬ stopCrossed c p₂ → liqCrossed c p₁ → liqCrossed c p₂ →
      c.liquidate p₁ = some (c.cover c.liq_price * (85 / 100)) ∧
      c.liquidate p₁ = c.liquidate p₂) := by
  constructor
  · intro sl hsl h1 h2
    rcases h1 with ⟨sl1, hsl1, hcross1⟩
    rcases h2 with ⟨sl2, hsl2, hcross2⟩
    rw [hsl] at hsl1 hsl2
    have e1 : sl1 = sl := (Option.some.inj hsl1).symm
    have e2 : sl2 = sl := (Option.some.inj hsl2).symm
    rw [e1] at hcross1
    rw [e2] at hcross2
    rw [liquidate_stop_eq c p₁ sl hsl hcross1, liquidate_stop_eq c p₂ sl hsl hcross2]
    exact ⟨rfl, rfl⟩
  · intro hs1 hs2 hl1 hl2
    rw [liquidate_liq_eq c p₁ hs1 hl1, liquidate_liq_eq c p₂ hs2 hl2]
    exact ⟨rfl, rfl⟩

/-- Witness for C10: two different prices beyond the stop-loss realize the
same value, at a concrete contract. -/
theorem C10_trigger_price_witness :
    (Contract.openContract true 100 100 100 0 (some (999 / 10))).liquidate 9 =
      some ((Contract.openContract true 100 100 100 0 (some (999 / 10))).cover (999 / 10)) ∧
    (Contract.openContract true 100 100 100 0 (some (999 / 10))).liquidate 9 =
      (Contract.openContract true 100 100 100 0 (some (999 / 10))).liquidate 50 :=
  (C10_trigger_price (Contract.openContract true 100 100 100 0 (some (999 / 10))) 9 50).1
    (999 / 10) (by norm_num [Contract.openContract, HANDLING_FEE_RATE_MAKER])
    ⟨999 / 10, by norm_num [Contract.openContract, HANDLING_FEE_RATE_MAKER], Or.inl ⟨rfl, by norm_num⟩⟩
    ⟨999 / 10, by norm_num [Contract.openContract, HANDLING_FEE_RATE_MAKER], Or.inl ⟨rfl, by norm_num⟩⟩

/-- C7: `Contract::close(p)` returns exactly `liquidate(p)`'s value when that
is defined and `cover(p)` otherwise; and for contracts opened with positive
entry price and capital and leverage at least 1, the forced-liquidation
realization `cover(liq_price) * 0.85` never exceeds the unpenalized
`cover(liq_price)`. -/
theorem C7_close_spec (c : Contract) (p : ℚ) (is_bull : Bool)
    (entry_price offered_balance leverage : ℚ) (open_time : ℤ) (osl : Option ℚ)
    (he : 0 < entry_price) (ho : 0 < offered_balance) (hl : 1 ≤ leverage) :
    (∀ v, c.liquidate p = some v → c.close p = v) ∧
    (c.liquidate p = none → c.close p = c.cover p) ∧
    (let c' := Contract.openContract is_bull entry_price offered_balance leverage open_time osl
     ¬ stopCrossed c' p → liqCrossed c' p →
       c'.liquidate p = some (c'.cover c'.liq_price * (85 / 100)) ∧
       c'.cover c'.liq_price * (85 / 100) ≤ c'.cover c'.liq_price) := by
  refine ⟨?_, ?_, ?_⟩
  · intro v hv
    simp [Contract.close, hv]
  · intro hv
    simp [Contract.close, hv]
  · intro c' hs hliq
    refine ⟨liquidate_liq_eq _ p hs hliq, ?_⟩
    have h0 : 0 ≤ c'.cover c'.liq_price :=
      cover_liq_nonneg is_bull entry_price offered_balance leverage open_time osl he ho hl
    linarith

/-- Witness for C7 at a concrete contract and a price that forces
liquidation. -/
theorem C7_close_spec_witness :
    (∀ v, (Contract.openContract true 100 100 100 0 none).liquidate 9 = some v →
      (Contract.openContract true 100 100 100 0 none).close 9 = v) ∧
    ((Contract.openContract true 100 100 100 0 none).liquidate 9 = none →
      (Contract.openContract true 100 100 100 0 none).close 9 =
        (Contract.openContract true 100 100 100 0 none).cover 9) ∧
    (let c' := Contract.openContract true 100 100 100 0 none
     ¬ stopCrossed c' 9 → liqCrossed c' 9 →
       c'.liquidate 9 = some (c'.cover c'.liq_price * (85 / 100)) ∧
       c'.cover c'.liq_price * (85 / 100) ≤ c'.cover c'.liq_price) :=
  C7_close_spec (Contract.openContract true 100 100 100 0 none) 9 true 100 100 100 0 none
    (by norm_num) (by norm_num) (by norm_num)

/-- Helper: `Contract::liquidate` returns `none` exactly when neither the
stop-loss nor the liquidation price is crossed. -/
theorem liquidate_eq_none_iff (c : Contract) (p : ℚ) :
    c.liquidate p = none ↔ ¬ stopCrossed c p ∧ ¬ liqCrossed c p := by
  constructor
  · intro h
    constructor
    · rintro ⟨sl, hsl, hcross⟩
      rw [liquidate_stop_eq c p sl hsl hcross] at h
      exact Option.noConfusion h
    · intro hlq
      by_cases hstop : stopCrossed c p
      · rcases hstop with ⟨sl, hsl, hcross⟩
        rw [liquidate_stop_eq c p sl hsl hcross] at h
        exact Option.noConfusion h
      · rw [liquidate_liq_eq c p hstop hlq] at h
        exact Option.noConfusion h
  · intro h
    exact liquidate_none_eq c p h.1 h.2

/-- Helper: if `liquidate` does not fire at the adverse price it does not
fire at any less adverse price (higher for longs, lower for shorts). -/
theorem liquidate_none_mono (c : Contract) (p q : ℚ)
    (hmono : (c.is_bull = true ∧ p ≤ q) ∨ (c.is_bull = false ∧ q ≤ p))
    (h : c.liquidate p = none) : c.liquidate q = none := by
  rw [liquidate_eq_none_iff] at h ⊢
  obtain ⟨hs, hl⟩ := h
  rcases hmono with ⟨hb, hpq⟩ | ⟨hb, hpq⟩
  · constructor
    · rintro ⟨sl, hsl, (⟨_, hq⟩ | ⟨hb', _⟩)⟩
      · exact hs ⟨sl, hsl, Or.inl ⟨hb, lt_of_le_of_lt hpq hq⟩⟩
      · rw [hb] at hb'
        exact Bool.noConfusion hb'
    · rintro (⟨_, hq⟩ | ⟨hb', _⟩)
      · exact hl (Or.inl ⟨hb, lt_of_le_of_lt hpq hq⟩)
      · rw [hb] at hb'
        exact Bool.noConfusion hb'
  · constructor
    · rintro ⟨sl, hsl, (⟨hb', _⟩ | ⟨_, hq⟩)⟩
      · rw [hb] at hb'
        exact Bool.noConfusion hb'
      · exact hs ⟨sl, hsl, Or.inr ⟨hb, lt_of_lt_of_le hq hpq⟩⟩
    · rintro (⟨hb', _⟩ | ⟨_, hq⟩)
      · rw [hb] at hb'
        exact Bool.noConfusion hb'
      · exact hl (Or.inr ⟨hb, lt_of_lt_of_le hq hpq⟩)

/-- Helper: `RollOnceStrategy::update`'s opening tail never changes the
status. -/
theorem openNext_status (s : RollOnceStrategy) (candle : CandleData) :
    (s.openNext candle).status = s.status := by
  rw [RollOnceStrategy.openNext]
  split
  · rfl
  · split
    · rfl
    · rfl

/-- Helper: behavior of the opening tail on a flat strategy. -/
theorem openNext_flat (s : RollOnceStrategy) (candle : CandleData)
    (hc : s.contract = none) :
    (s.config.length ≤ s.level → s.openNext candle = s) ∧
    (s.level < s.config.length →
      s.openNext candle =
        { s with
          contract := some (Contract.openContract s.is_bull candle.close s.capital
            (s.config.getD s.level (0, 0, none)).1 candle.close_time
            (some (if s.is_bull then
                candle.close * (1 - (99 / 100) / (s.config.getD s.level (0, 0, none)).1)
                  + candle.close * (4 / 1000)
              else candle.close * (1 + (99 / 100) / (s.config.getD s.level (0, 0, none)).1)
                  - candle.close * (4 / 1000))))
          capital := 0
          level := s.level + 1 }) := by
  constructor
  · intro hle
    rw [RollOnceStrategy.openNext, hc]
    simp [hle]
  · intro hlt
    rw [RollOnceStrategy.openNext, hc]
    simp [not_le.mpr hlt]

/-- C8: on a `RollOnceStrategy` whose status is not `Processing`,
`update` is the identity for every candle, and `value()` is unchanged by
any further sequence of updates. -/
theorem C8_terminal_sticky (s : RollOnceStrategy) (candle : CandleData)
    (cs : List CandleData) (h : s.status ≠ RollOnceStatus.Processing) :
    s.update candle = s ∧
    (cs.foldl RollOnceStrategy.update s).value = s.value := by
  have hupd : ∀ c : CandleData, s.update c = s := by
    intro c
    rw [RollOnceStrategy.update, if_pos h]
  refine ⟨hupd candle, ?_⟩
  have hfold : cs.foldl RollOnceStrategy.update s = s := by
    induction cs with
    | nil => rfl
    | cons c cs ih => rw [List.foldl_cons, hupd c, ih]
  rw [hfold]

/-- Witness for C8 at a concrete terminal strategy. -/
theorem C8_terminal_sticky_witness :
    (RollOnceStrategy.mk true 5 [] none 0 0 0 RollOnceStatus.Failed).update
        (CandleData.mk 100 110 90 105 1 0 60) =
      RollOnceStrategy.mk true 5 [] none 0 0 0 RollOnceStatus.Failed ∧
    (([CandleData.mk 100 110 90 105 1 0 60, CandleData.mk 105 120 100 118 1 60 120]).foldl
        RollOnceStrategy.update
        (RollOnceStrategy.mk true 5 [] none 0 0 0 RollOnceStatus.Failed)).value =
      (RollOnceStrategy.mk true 5 [] none 0 0 0 RollOnceStatus.Failed).value :=
  C8_terminal_sticky (RollOnceStrategy.mk true 5 [] none 0 0 0 RollOnceStatus.Failed)
    (CandleData.mk 100 110 90 105 1 0 60)
    [CandleData.mk 100 110 90 105 1 0 60, CandleData.mk 105 120 100 118 1 60 120]
    (by decide)

/-- C5: while `Processing` and holding a contract, when the liquidation
check at the adverse extreme does not fire and the close price has crossed
the current level's take-profit threshold, `update` adds the contract's
unpenalized close value `cover(close)` to capital, keeps the status
`Processing`, and — when ladder levels remain — opens a new contract at the
next level funded by the realized capital within the same update. -/
theorem C5_take_profit_continues (s : RollOnceStrategy) (candle : CandleData) (c : Contract)
    (hstatus : s.status = RollOnceStatus.Processing)
    (hc : s.contract = some c)
    (hcb : c.is_bull = s.is_bull)
    (hlc : s.is_bull = true → candle.low ≤ candle.close)
    (hch : s.is_bull = false → candle.close ≤ candle.high)
    (hliq : c.liquidate (if s.is_bull then candle.low else candle.high) = none)
    (htp : (s.is_bull = true ∧
             c.entry_price * (1 + (s.config.getD (s.level - 1) (0, 0, none)).2.1)
               < candle.close) ∨
           (s.is_bull = false ∧
             candle.close
               < c.entry_price * (1 - (s.config.getD (s.level - 1) (0, 0, none)).2.1))) :
    (s.update candle).status = RollOnceStatus.Processing ∧
    s.update candle =
      RollOnceStrategy.openNext
        { s with contract := none, capital := s.capital + c.cover candle.close } candle ∧
    (s.config.length ≤ s.level →
      s.update candle =
        { s with contract := none, capital := s.capital + c.cover candle.close }) ∧
    (s.level < s.config.length →
      s.update candle =
        { s with
          contract := some (Contract.openContract s.is_bull candle.close
            (s.capital + c.cover candle.close)
            (s.config.getD s.level (0, 0, none)).1 candle.close_time
            (some (if s.is_bull then
                candle.close * (1 - (99 / 100) / (s.config.getD s.level (0, 0, none)).1)
                  + candle.close * (4 / 1000)
              else candle.close * (1 + (99 / 100) / (s.config.getD s.level (0, 0, none)).1)
                  - candle.close * (4 / 1000))))
          capital := 0
          level := s.level + 1 }) := by
  have h1 : ¬(s.status ≠ RollOnceStatus.Processing) := by simp [hstatus]
  have hcloseq : c.liquidate candle.close = none := by
    apply liquidate_none_mono c (if s.is_bull then candle.low else candle.high) candle.close _ hliq
    cases hbull : s.is_bull with
    | true =>
        left
        exact ⟨hcb.trans hbull, by simpa using hlc hbull⟩
    | false =>
        right
        exact ⟨hcb.trans hbull, by simpa using hch hbull⟩
  have hccover : c.close candle.close = c.cover candle.close := by
    simp only [Contract.close, hcloseq]
  have hstep : s.updateContract candle =
      { s with contract := none, capital := s.capital + c.cover candle.close } := by
    simp only [RollOnceStrategy.updateContract, hc, hliq]
    rw [if_pos htp, hccover]
  have hs1 : ({ s with contract := none, capital := s.capital + c.cover candle.close }
      : RollOnceStrategy).status = RollOnceStatus.Processing := hstatus
  have hmain : s.update candle =
      RollOnceStrategy.openNext
        { s with contract := none, capital := s.capital + c.cover candle.close } candle := by
    rw [RollOnceStrategy.update, if_neg h1]
    rw [hstep]
    rw [if_neg (by simp [hstatus])]
  have hflat := openNext_flat
    { s with contract := none, capital := s.capital + c.cover candle.close } candle rfl
  refine ⟨?_, hmain, ?_, ?_⟩
  · rw [hmain, openNext_status]
    exact hstatus
  · intro hle
    rw [hmain, hflat.1 hle]
  · intro hlt
    rw [hmain, hflat.2 hlt]

/-- C1: `Contract::open` sets `margin = offered_capital / (1 + leverage * 0.0002)`
(so that, whenever the divisor is nonzero, `margin + margin*leverage*0.0002`
recovers the offered capital), `liq_price = entry_price*(1 - 1/leverage) +
entry_price*0.004` for longs and `entry_price*(1 + 1/leverage) -
entry_price*0.004` for shorts, and `amount = margin * leverage / entry_price`. -/
theorem C1_open_fields (is_bull : Bool) (entry_price offered_balance leverage : ℚ)
    (open_time : ℤ) (stop_loss : Option ℚ) (c : Contract)
    (hc : c = Contract.openContract is_bull entry_price offered_balance leverage open_time
      stop_loss)
    (hfee : 1 + leverage * (2 / 10000) ≠ 0) :
    c.margin = offered_balance / (1 + leverage * (2 / 10000)) ∧
    c.margin + c.margin * leverage * (2 / 10000) = offered_balance ∧
    c.liq_price = (if is_bull then entry_price * (1 - 1 / leverage) + entry_price * (4 / 1000)
                   else entry_price * (1 + 1 / leverage) - entry_price * (4 / 1000)) ∧
    c.amount = c.margin * leverage / entry_price := by
  subst hc
  refine ⟨rfl, ?_, rfl, rfl⟩
  show offered_balance / (1 + leverage * HANDLING_FEE_RATE_MAKER) +
      offered_balance / (1 + leverage * HANDLING_FEE_RATE_MAKER) * leverage * (2 / 10000) =
      offered_balance
  rw [HANDLING_FEE_RATE_MAKER]
  calc offered_balance / (1 + leverage * (2 / 10000)) +
        offered_balance / (1 + leverage * (2 / 10000)) * leverage * (2 / 10000)
      = offered_balance / (1 + leverage * (2 / 10000)) * (1 + leverage * (2 / 10000)) := by ring
    _ = offered_balance := div_mul_cancel₀ _ hfee

/-- Witness for C1 at a concrete call. -/
theorem C1_open_fields_witness :
    (Contract.openContract true 100 100 25 0 none).margin = 100 / (1 + 25 * (2 / 10000)) ∧
    (Contract.openContract true 100 100 25 0 none).margin +
      (Contract.openContract true 100 100 25 0 none).margin * 25 * (2 / 10000) = 100 ∧
    (Contract.openContract true 100 100 25 0 none).liq_price =
      (if true then (100 : ℚ) * (1 - 1 / 25) + 100 * (4 / 1000)
       else 100 * (1 + 1 / 25) - 100 * (4 / 1000)) ∧
    (Contract.openContract true 100 100 25 0 none).amount =
      (Contract.openContract true 100 100 25 0 none).margin * 25 / 100 :=
  C1_open_fields true 100 100 25 0 none (Contract.openContract true 100 100 25 0 none)
    rfl (by norm_num)

/-- C3 counterexample: at `leverage = 250` (which satisfies `leverage ≥ 1`)
and `entry_price = 100 > 0`, the long liquidation price equals the entry
price, so it is not strictly below it as the claim requires. -/
theorem C3_counterexample :
    (1 : ℚ) ≤ 250 ∧ (0 : ℚ) < 100 ∧
    ¬ (Contract.openContract true 100 100 250 0 none).liq_price < 100 := by
  refine ⟨by norm_num, by norm_num, ?_⟩
  show ¬ ((100 : ℚ) * (1 - 1 / 250) + 100 * (4 / 1000) < 100)
  norm_num

/-- C3 (amended): for `1 ≤ leverage < 250` and `entry_price > 0`, the
liquidation price produced by `Contract::open` lies strictly between 0 and
the entry price for longs and strictly above the entry price for shorts; at
`leverage ≥ 250` the bound against the entry price fails. -/
theorem C3_liq_price_bounds (is_bull : Bool) (entry_price offered_balance leverage : ℚ)
    (open_time : ℤ) (stop_loss : Option ℚ) (c : Contract)
    (hc : c = Contract.openContract is_bull entry_price offered_balance leverage open_time
      stop_loss)
    (hl : 1 ≤ leverage) (hl250 : leverage < 250) (he : 0 < entry_price) :
    (is_bull = true → 0 < c.liq_price ∧ c.liq_price < entry_price) ∧
    (is_bull = false → entry_price < c.liq_price) := by
  subst hc
  have hl0 : 0 < leverage := lt_of_lt_of_le one_pos hl
  have hinv_le : 1 / leverage ≤ 1 := by
    rw [div_le_one hl0]; exact hl
  have hinv_gt : (4 : ℚ) / 1000 < 1 / leverage := by
    rw [div_lt_div_iff (by norm_num) hl0]
    linarith
  cases is_bull with
  | true =>
      refine ⟨fun _ => ⟨?_, ?_⟩, fun h => by simp at h⟩
      · show 0 < entry_price * (1 - 1 / leverage) + entry_price * (4 / 1000)
        nlinarith [mul_nonneg he.le (sub_nonneg.mpr hinv_le)]
      · show entry_price * (1 - 1 / leverage) + entry_price * (4 / 1000) < entry_price
        nlinarith [mul_pos he (sub_pos.mpr hinv_gt)]
  | false =>
      refine ⟨fun h => by simp at h, fun _ => ?_⟩
      show entry_price < entry_price * (1 + 1 / leverage) - entry_price * (4 / 1000)
      nlinarith [mul_pos he (sub_pos.mpr hinv_gt)]

/-- Witness for the amended C3 at a concrete call. -/
theorem C3_liq_price_bounds_witness :
    (true = true → 0 < (Contract.openContract true 100 100 25 0 none).liq_price ∧
      (Contract.openContract true 100 100 25 0 none).liq_price < 100) ∧
    (true = false → (100 : ℚ) < (Contract.openContract true 100 100 25 0 none).liq_price) :=
  C3_liq_price_bounds true 100 100 25 0 none (Contract.openContract true 100 100 25 0 none)
    rfl (by norm_num) (by norm_num) (by norm_num)

/-- C4 counterexample: at `leverage = 1/2 < 1` (an invalid parameter per the
claim) `Contract::open` does not fail: it returns a fully-formed `Contract`,
while the spec-modelled checked constructor would reject the call. -/
theorem C4_counterexample :
    Contract.openContract true 100 100 (1 / 2) 0 none =
      { is_bull := true, margin := 1000000 / 10001, entry_price := 100, open_time := 0,
        liq_price := -(498 / 5), amount := 5000 / 10001, leverage := 1 / 2,
        stop_loss := none } ∧
    openChecked true 100 100 (1 / 2) 0 none = none := by
  constructor
  · show Contract.mk _ _ _ _ _ _ _ _ = _
    simp only [Contract.openContract, HANDLING_FEE_RATE_MAKER, Contract.mk.injEq]
    norm_num
  · rw [openChecked]
    norm_num

/-- C4 (amended): `Contract::open` performs no parameter validation —
every call, including those with `leverage < 1` or non-positive
`entry_price`/`offered_capital`, produces a `Contract` whose fields follow
the usual open formulas, rather than surfacing an error. -/
theorem C4_no_validation (is_bull : Bool) (entry_price offered_balance leverage : ℚ)
    (open_time : ℤ) (stop_loss : Option ℚ) (c : Contract)
    (hc : c = Contract.openContract is_bull entry_price offered_balance leverage open_time
      stop_loss)
    (hbad : leverage < 1 ∨ entry_price ≤ 0 ∨ offered_balance ≤ 0) :
    c.margin = offered_balance / (1 + leverage * (2 / 10000)) ∧
    c.liq_price = (if is_bull then entry_price * (1 - 1 / leverage) + entry_price * (4 / 1000)
                   else entry_price * (1 + 1 / leverage) - entry_price * (4 / 1000)) ∧
    c.amount = c.margin * leverage / entry_price ∧
    c.entry_price = entry_price ∧ c.leverage = leverage ∧ c.is_bull = is_bull ∧
    c.open_time = open_time := by
  subst hc
  exact ⟨rfl, rfl, rfl, rfl, rfl, rfl, rfl⟩

/-- Witness for the amended C4 at a concrete invalid call. -/
theorem C4_no_validation_witness :
    (Contract.openContract true 100 100 (1 / 2) 0 none).margin =
      100 / (1 + (1 / 2) * (2 / 10000)) ∧
    (Contract.openContract true 100 100 (1 / 2) 0 none).liq_price =
      (if true then (100 : ℚ) * (1 - 1 / (1 / 2)) + 100 * (4 / 1000)
       else 100 * (1 + 1 / (1 / 2)) - 100 * (4 / 1000)) ∧
    (Contract.openContract true 100 100 (1 / 2) 0 none).amount =
      (Contract.openContract true 100 100 (1 / 2) 0 none).margin * (1 / 2) / 100 ∧
    (Contract.openContract true 100 100 (1 / 2) 0 none).entry_price = 100 ∧
    (Contract.openContract true 100 100 (1 / 2) 0 none).leverage = 1 / 2 ∧
    (Contract.openContract true 100 100 (1 / 2) 0 none).is_bull = true ∧
    (Contract.openContract true 100 100 (1 / 2) 0 none).open_time = 0 :=
  C4_no_validation true 100 100 (1 / 2) 0 none
    (Contract.openContract true 100 100 (1 / 2) 0 none) rfl (Or.inl (by norm_num))

/-- C9: when the supplied stop-loss lies on the wrong side of the computed
liquidation price (for a long, below it; for a short, above it),
`Contract::open` still constructs the contract but with the stop-loss
dropped: the result equals the contract opened with no stop-loss at all. -/
theorem C9_bad_stop_loss_dropped (is_bull : Bool) (entry_price offered_balance leverage : ℚ)
    (open_time : ℤ) (sl : ℚ)
    (hbad : (is_bull = true ∧
               sl < entry_price * (1 - 1 / leverage) + entry_price * (4 / 1000)) ∨
            (is_bull = false ∧
               entry_price * (1 + 1 / leverage) - entry_price * (4 / 1000) < sl)) :
    (Contract.openContract is_bull entry_price offered_balance leverage open_time (some sl)).stop_loss
        = none ∧
    Contract.openContract is_bull entry_price offered_balance leverage open_time (some sl) =
      Contract.openContract is_bull entry_price offered_balance leverage open_time none := by
  cases is_bull with
  | true =>
      rcases hbad with ⟨_, hlt⟩ | ⟨h, _⟩
      · rw [one_div] at hlt
        constructor
        · simp [Contract.openContract, hlt]
        · simp [Contract.openContract, hlt]
      · exact absurd h (by simp)
  | false =>
      rcases hbad with ⟨h, _⟩ | ⟨_, hlt⟩
      · exact absurd h (by simp)
      · rw [one_div] at hlt
        constructor
        · simp [Contract.openContract, hlt, not_lt_of_gt hlt]
        · simp [Contract.openContract, hlt, not_lt_of_gt hlt]

/-- Witness for C9 at a concrete call (long, stop-loss below the
liquidation price). -/
theorem C9_bad_stop_loss_dropped_witness :
    (Contract.openContract true 100 100 25 0 (some 50)).stop_loss = none ∧
    Contract.openContract true 100 100 25 0 (some 50) =
      Contract.openContract true 100 100 25 0 none :=
  C9_bad_stop_loss_dropped true 100 100 25 0 50 (Or.inl ⟨rfl, by norm_num⟩)

/-- Concrete level-1 contract for the C5 witness. -/
def rollWContract : Contract := Contract.openContract true 100 100 25 0 (some (9644 / 100))

/-- Concrete mid-run ladder strategy for the C5 witness. -/
def rollW : RollOnceStrategy :=
  RollOnceStrategy.mk true 0 [(25, 4 / 100, none), (20, 5 / 100, none)]
    (some rollWContract) 1 0 0 RollOnceStatus.Processing

/-- Concrete candle for the C5 witness. -/
def rollWCandle : CandleData := CandleData.mk 102 110 100 105 1 60 120

/-- Witness for C5 at a concrete strategy, contract and candle. -/
theorem C5_take_profit_continues_witness :
    (rollW.update rollWCandle).status = RollOnceStatus.Processing ∧
    rollW.update rollWCandle =
      RollOnceStrategy.openNext
        { rollW with
          contract := none
          capital := rollW.capital + rollWContract.cover rollWCandle.close } rollWCandle ∧
    (rollW.config.length ≤ rollW.level →
      rollW.update rollWCandle =
        { rollW with
          contract := none
          capital := rollW.capital + rollWContract.cover rollWCandle.close }) ∧
    (rollW.level < rollW.config.length →
      rollW.update rollWCandle =
        { rollW with
          contract := some (Contract.openContract rollW.is_bull rollWCandle.close
            (rollW.capital + rollWContract.cover rollWCandle.close)
            (rollW.config.getD rollW.level (0, 0, none)).1 rollWCandle.close_time
            (some (if rollW.is_bull then
                rollWCandle.close *
                    (1 - (99 / 100) / (rollW.config.getD rollW.level (0, 0, none)).1)
                  + rollWCandle.close * (4 / 1000)
              else rollWCandle.close *
                    (1 + (99 / 100) / (rollW.config.getD rollW.level (0, 0, none)).1)
                  - rollWCandle.close * (4 / 1000))))
          capital := 0
          level := rollW.level + 1 }) :=
  C5_take_profit_continues rollW rollWCandle rollWContract rfl rfl rfl
    (by norm_num [rollW, rollWCandle]) (by simp [rollW])
    (by norm_num [rollW, rollWCandle, rollWContract, Contract.openContract, Contract.liquidate,
      HANDLING_FEE_RATE_MAKER])
    (Or.inl ⟨rfl, by norm_num [rollW, rollWCandle, rollWContract, Contract.openContract,
      HANDLING_FEE_RATE_MAKER]⟩)

/-- C6: when a `GeoStrategy` is flat, the reopen interval has elapsed, and
capital is below the configured floor, the top-up draws first from the
private stake buffer and only the remaining shortfall from the shared pool;
if the pool balance is below that remaining shortfall the update aborts
fatally (modelled as `none`) instead of opening a position; any amount
actually drawn from the pool is added to the cumulative cost. -/
theorem C6_topup_pool (s : GeoStrategy) (total : ℚ) (candle : CandleData)
    (hpos : s.position = none)
    (hint : s.last_time + s.interval ≤ candle.close_time)
    (hcap : s.capital < s.supply) :
    (s.stake < s.supply - s.capital → total < (s.supply - s.capital) - s.stake →
      s.update total candle = none) ∧
    (s.stake < s.supply - s.capital → (s.supply - s.capital) - s.stake ≤ total →
      s.update total candle =
        some (GeoStrategy.openPos
          { s with
            stake := 0
            cost := s.cost + ((s.supply - s.capital) - s.stake)
            capital := s.supply } candle,
          total - ((s.supply - s.capital) - s.stake))) ∧
    (s.supply - s.capital ≤ s.stake →
      s.update total candle =
        some (GeoStrategy.openPos
          { s with
            stake := s.stake - (s.supply - s.capital)
            capital := s.supply } candle,
          total)) := by
  have hcond : ¬((((none : Option Contract).isSome : Bool) : Prop) ∨
      candle.close_time < s.last_time + s.interval) := by
    simp only [Option.isSome_none, Bool.false_eq_true, false_or]
    exact not_lt.mpr hint
  refine ⟨?_, ?_, ?_⟩
  · intro hstake hpool
    simp only [GeoStrategy.update, hpos]
    rw [if_neg hcond, if_pos hcap, if_pos hstake, if_pos hpool]
  · intro hstake hpool
    simp only [GeoStrategy.update, hpos]
    rw [if_neg hcond, if_pos hcap, if_pos hstake, if_neg (not_lt.mpr hpool)]
  · intro hstake
    simp only [GeoStrategy.update, hpos]
    rw [if_neg hcond, if_pos hcap, if_neg (not_lt.mpr hstake)]

/-- Witness for C6: a concrete flat strategy whose shared pool is smaller
than the remaining shortfall aborts. -/
theorem C6_topup_pool_witness :
    (GeoStrategy.mk true 10 60 (1 / 2) 100 (1 / 100) (1 / 100) none 0 5 0 0 0).update 50
      (CandleData.mk 100 110 90 105 1 540 600) = none :=
  (C6_topup_pool (GeoStrategy.mk true 10 60 (1 / 2) 100 (1 / 100) (1 / 100) none 0 5 0 0 0)
    50 (CandleData.mk 100 110 90 105 1 540 600) rfl (by norm_num) (by norm_num)).1
    (by norm_num) (by norm_num)

end Hurribot
